import Mathlib

set_option linter.unusedVariables false

/-!
Verification of the FSRS-style spaced-repetition scheduler in
chess_client (models.py and views.py), shallowly embedded in Lean.
Timestamps are modelled as real numbers measured in days, so that
(now - last_review_date) is directly the elapsed time in days; Python
floats are modelled as real numbers.
-/

noncomputable section

namespace ChessClient

/-- One FSRS memory record per (learner, item) pair, mirroring the
FSRSMemory model (models.py): difficulty, stability, and the two
optional review timestamps. Timestamps are reals (days). -/
structure FSRSMemory where
  player_username : String
  puzzle_id : Nat
  difficulty : ℝ
  stability : ℝ
  last_review_date : Option ℝ
  next_review_date : Option ℝ
  updated_at : ℝ

/-- PuzzleAttempt.determine_rating (models.py): derive a quality rating
from attempt telemetry. Total over all inputs. -/
def determine_rating (solved : Bool) (tries_count : ℤ) (hint_used : Bool) : ℤ :=
  if ¬ solved then 1
  else if tries_count > 2 ∨ hint_used then 2
  else if tries_count > 0 then 3
  else 4

/-- The initial_stability dictionary (models.py update_memory and
views.py FSRS_PARAMS): defined keys 1..4 only; callers use .get with
default 1.0, modelled by Option.getD at the call site. -/
def initial_stability (rating : ℤ) : Option ℝ :=
  if rating = 1 then some 0.5
  else if rating = 2 then some 1.2
  else if rating = 3 then some 3.0
  else if rating = 4 then some 7.0
  else none

/-- The stability_multipliers dictionary: keys 1..4; callers use .get
with default 1.5 on the success branch. -/
def stability_multipliers (rating : ℤ) : Option ℝ :=
  if rating = 1 then some 0.2
  else if rating = 2 then some 1.1
  else if rating = 3 then some 1.5
  else if rating = 4 then some 2.0
  else none

/-- The difficulty_adjustments dictionary: keys 1..4; callers use .get
with default 0. -/
def difficulty_adjustments (rating : ℤ) : Option ℝ :=
  if rating = 1 then some 0.1
  else if rating = 2 then some 0.05
  else if rating = 3 then some (-0.05)
  else if rating = 4 then some (-0.1)
  else none

namespace FSRSMemoryService

/-- FSRSMemoryService.calculate_retrievability (views.py): recall
probability exp(-elapsed_days / stability). -/
def calculate_retrievability (stability elapsed_days : ℝ) : ℝ :=
  Real.exp (-elapsed_days / stability)

/-- FSRSMemoryService.calculate_next_interval (views.py), identical to
FSRSMemory.calculate_next_interval (models.py): days until next review,
-stability * log desired_retention. -/
def calculate_next_interval (stability : ℝ) (desired_retention : ℝ) : ℝ :=
  -stability * Real.log desired_retention

/-- FSRSMemoryService.update_memory (views.py), identical in algorithm
to FSRSMemory.update_memory (models.py). The solved flag is accepted
but unused by the algorithm, exactly as in the source. Python math.sqrt
raises on negative input; Lean Real.sqrt totalizes it to 0 there, and no
claim depends on negative elapsed time. The lapse branch indexes the
multiplier table directly at key 1, whose value is 0.2. -/
def update_memory (memory : FSRSMemory) (rating : ℤ) (solved : Bool)
    (tries_count : ℤ) (hint_used : Bool) (now : ℝ) : FSRSMemory :=
  let elapsed_days : ℝ :=
    match memory.last_review_date with
    | some t => now - t
    | none => 0
  let stability1 : ℝ :=
    match memory.last_review_date with
    | some _ => memory.stability
    | none => (initial_stability rating).getD 1.0
  let difficulty1 : ℝ := memory.difficulty + (difficulty_adjustments rating).getD 0
  let difficulty2 : ℝ :=
    if tries_count > 0 then difficulty1 + 0.1 * ((min tries_count 3 : ℤ) : ℝ)
    else difficulty1
  let difficulty3 : ℝ := if hint_used then difficulty2 + 0.2 else difficulty2
  let difficulty4 : ℝ := max 1.0 (min 3.0 difficulty3)
  let stability2 : ℝ :=
    match memory.last_review_date with
    | none => stability1
    | some _ =>
      if rating = 1 then
        stability1 * 0.2
      else
        stability1 * ((stability_multipliers rating).getD 1.5 *
          min 2.0 (Real.sqrt (elapsed_days / max stability1 0.1)))
  let next_interval : ℝ := calculate_next_interval stability2 0.9
  { memory with
    difficulty := difficulty4
    stability := stability2
    next_review_date := some (now + next_interval)
    last_review_date := some now
    updated_at := now }

end FSRSMemoryService

/-- FSRSMemory.calculate_retrievability (models.py): the instance method
variant that treats a never-reviewed item as fully retrievable. The
implicit timezone.now() is passed explicitly. -/
def FSRSMemory.calculate_retrievability (m : FSRSMemory) (now : ℝ) : ℝ :=
  match m.last_review_date with
  | none => 1.0
  | some t => Real.exp (-((now - t)) / m.stability)

/-- Puzzle record (models.py), reduced to the fields the scheduler
endpoints consult: identity and owning player. -/
structure Puzzle where
  id : Nat
  player_username : String

/-- PuzzleAttempt record (models.py), with the fields the FSRS endpoints
read and write. -/
structure PuzzleAttempt where
  puzzle_id : Nat
  player_username : String
  attempt_number : ℤ
  tries_count : ℤ
  hint_used : Bool
  solved : Bool
  rating : Option ℤ
  created_at : ℝ
  completed_at : Option ℝ

/-- UserDailyProgress record (models.py): daily counters of new items
seen and reviews done. -/
structure UserDailyProgress where
  new_puzzles_seen : ℤ
  reviews_done : ℤ

/-- UserDailyProgress.total_puzzles_done (models.py). -/
def UserDailyProgress.total_puzzles_done (p : UserDailyProgress) : ℤ :=
  p.new_puzzles_seen + p.reviews_done

/-- The due-memory filter of DailyPuzzlesView.get (views.py):
FSRSMemory.objects.filter(player_username=username,
next_review_date__lte=now). SQL lte excludes NULL timestamps. -/
def due_memory (username : String) (now : ℝ) (m : FSRSMemory) : Bool :=
  decide (m.player_username = username) &&
    match m.next_review_date with
    | some t => decide (t ≤ now)
    | none => false

/-- The due-puzzle list of DailyPuzzlesView.get (views.py): the ids of
the due memories feed an id__in query against the Puzzle table. The
order_by on next_review_date in the source affects only the order of the
id list, which the membership query then discards; the id__in query has
no ORDER BY of its own, so rows are modelled in store order. -/
def due_puzzles_of (username : String) (memories : List FSRSMemory)
    (puzzles : List Puzzle) (now : ℝ) : List Puzzle :=
  let due_puzzle_ids := (memories.filter (due_memory username now)).map (fun m => m.puzzle_id)
  puzzles.filter (fun p => decide (p.id ∈ due_puzzle_ids))

/-- The daily-mix selection of DailyPuzzlesView.get (views.py), before
pagination: quota computation, early return on exhausted quota, due
reviews first, then new puzzles. The order_by of the new-puzzle query is
random in the source and is modelled by the shuffle parameter. -/
def dailyPuzzles (username : String) (memories : List FSRSMemory)
    (puzzles : List Puzzle) (attempts : List PuzzleAttempt)
    (progress : UserDailyProgress) (new_limit total_limit : ℤ) (now : ℝ)
    (shuffle : List Puzzle → List Puzzle) : List Puzzle :=
  let new_remaining := max 0 (new_limit - progress.new_puzzles_seen)
  let total_remaining := max 0 (total_limit - progress.total_puzzles_done)
  if total_remaining ≤ 0 then []
  else
    let due_puzzles := due_puzzles_of username memories puzzles now
    let attempted_puzzle_ids :=
      (attempts.filter (fun a => decide (a.player_username = username))).map
        (fun a => a.puzzle_id)
    let new_puzzles :=
      (shuffle (puzzles.filter (fun p =>
        decide (p.player_username = username) &&
          decide (p.id ∉ attempted_puzzle_ids)))).take new_remaining.toNat
    let reviews_to_use := min (due_puzzles.length : ℤ) total_remaining
    let new_to_use := min (new_puzzles.length : ℤ) (total_remaining - reviews_to_use)
    due_puzzles.take reviews_to_use.toNat ++ new_puzzles.take new_to_use.toNat

/-- The transported response list of DailyPuzzlesView.get (views.py):
the selection truncated to per_page. -/
def dailyPuzzlesPage (username : String) (memories : List FSRSMemory)
    (puzzles : List Puzzle) (attempts : List PuzzleAttempt)
    (progress : UserDailyProgress) (new_limit total_limit per_page : ℤ) (now : ℝ)
    (shuffle : List Puzzle → List Puzzle) : List Puzzle :=
  (dailyPuzzles username memories puzzles attempts progress new_limit total_limit
    now shuffle).take per_page.toNat

/-- Persistent state touched by FSRSPuzzleAttemptView.post (views.py):
the attempt log, the daily counters, and the FSRS memory row for the
(player, puzzle) pair under submission. -/
structure AttemptDB where
  attempts : List PuzzleAttempt
  progress : UserDailyProgress
  memory : Option FSRSMemory

/-- Result of FSRSPuzzleAttemptView.post: either the 400 response of the
presence check, or the 201 success payload. -/
inductive PostResult where
  | badRequest (msg : String)
  | created (rating : ℤ) (next_review_date : Option ℝ)

/-- PostResult.created recogniser. -/
def PostResult.isCreated : PostResult → Bool
  | PostResult.badRequest _ => false
  | PostResult.created _ _ => true

/-- FSRSPuzzleAttemptView.post (views.py), for a puzzle_id and player
that exist (the 404 branch for unknown identifiers is outside the
claims). The view checks only the presence of puzzle_id and
player_username; it performs no validation of tries_count or rating.
It then records the attempt, increments the daily counters, creates the
default memory row if absent, and runs the FSRS update. -/
def fsrsAttemptPost (db : AttemptDB) (puzzle_id : Option Nat)
    (player_username : Option String) (tries_count : ℤ) (hint_used solved : Bool)
    (rating0 : Option ℤ) (now : ℝ) : PostResult × AttemptDB :=
  match puzzle_id, player_username with
  | some pid, some username =>
    let prev :=
      (db.attempts.filter (fun a =>
        decide (a.puzzle_id = pid) && decide (a.player_username = username))).map
        (fun a => a.attempt_number)
    let next_attempt : ℤ :=
      match prev.max? with
      | some m => m + 1
      | none => 1
    let rating : ℤ :=
      match rating0 with
      | some r => r
      | none => determine_rating solved tries_count hint_used
    let attempt : PuzzleAttempt :=
      { puzzle_id := pid
        player_username := username
        attempt_number := next_attempt
        tries_count := tries_count
        hint_used := hint_used
        solved := solved
        rating := some rating
        created_at := now
        completed_at := if solved then some now else none }
    let is_first_attempt : Bool := next_attempt == 1
    let progress : UserDailyProgress :=
      if is_first_attempt then
        { db.progress with new_puzzles_seen := db.progress.new_puzzles_seen + 1 }
      else
        { db.progress with reviews_done := db.progress.reviews_done + 1 }
    let memory : FSRSMemory :=
      match db.memory with
      | some m => m
      | none =>
        { player_username := username
          puzzle_id := pid
          difficulty := 2.0
          stability := 0.5
          last_review_date := none
          next_review_date := none
          updated_at := now }
    let memory2 :=
      FSRSMemoryService.update_memory memory rating solved tries_count hint_used now
    (PostResult.created rating memory2.next_review_date,
      { attempts := db.attempts ++ [attempt]
        progress := progress
        memory := some memory2 })
  | _, _ =>
    (PostResult.badRequest "puzzle_id and player_username are required", db)

/-- Claim C6: the quality-derivation function is total over all
(solved, tries, hint_used) combinations and returns, in priority order,
1 if not solved, else 2 if tries exceed 2 or a hint was used, else 3 if
tries are positive, else 4; its result always lies in the set 1..4. -/
theorem determine_rating_total (solved : Bool) (tries_count : ℤ) (hint_used : Bool) :
    (determine_rating solved tries_count hint_used = 1 ∨
      determine_rating solved tries_count hint_used = 2 ∨
      determine_rating solved tries_count hint_used = 3 ∨
      determine_rating solved tries_count hint_used = 4) ∧
    (solved = false → determine_rating solved tries_count hint_used = 1) ∧
    (solved = true → (tries_count > 2 ∨ hint_used = true) →
      determine_rating solved tries_count hint_used = 2) ∧
    (solved = true → tries_count ≤ 2 → hint_used = false → tries_count > 0 →
      determine_rating solved tries_count hint_used = 3) ∧
    (solved = true → hint_used = false → tries_count ≤ 0 →
      determine_rating solved tries_count hint_used = 4) := by
  unfold determine_rating
  cases solved <;> cases hint_used <;> split_ifs <;> simp_all <;> omega

/-- Witness for C6: a failed solve derives quality 1. -/
theorem determine_rating_total_witness : determine_rating false 3 true = 1 :=
  (determine_rating_total false 3 true).2.1 rfl

/-- Claim C5: one update with quality 3, tries 0, no hint, on the
brand-new default MemoryState (difficulty 2.0, stability 0.5, no
last_review_date) yields stability exactly 3.0 and difficulty exactly
1.95, for every now and either value of the unused solved flag. -/
theorem update_memory_first_review_good (u : String) (pid : Nat) (t0 now : ℝ)
    (solved : Bool) :
    (FSRSMemoryService.update_memory
        ⟨u, pid, 2.0, 0.5, none, none, t0⟩ 3 solved 0 false now).stability = 3.0 ∧
    (FSRSMemoryService.update_memory
        ⟨u, pid, 2.0, 0.5, none, none, t0⟩ 3 solved 0 false now).difficulty = 1.95 := by
  unfold FSRSMemoryService.update_memory
  norm_num [initial_stability, difficulty_adjustments, min_def, max_def]

/-- Claim C4: on a non-first review (last_review_date present), quality
1 multiplies stability by exactly 0.2, for every now (hence every
elapsed time): the spacing multiplier is never applied on the lapse
branch. -/
theorem update_memory_lapse_stability (m : FSRSMemory) (solved : Bool)
    (tries_count : ℤ) (hint_used : Bool) (now t : ℝ)
    (h : m.last_review_date = some t) :
    (FSRSMemoryService.update_memory m 1 solved tries_count hint_used now).stability
      = m.stability * 0.2 := by
  unfold FSRSMemoryService.update_memory
  rw [h]
  simp

/-- Witness for C4: a concrete reviewed state with stability 4 lapses to
stability 4 * 0.2. -/
theorem update_memory_lapse_stability_witness :
    (FSRSMemoryService.update_memory
        ⟨"u", 1, 2.0, 4.0, some 0, some 1, 0⟩ 1 false 2 false 7).stability
      = (4.0 : ℝ) * 0.2 :=
  update_memory_lapse_stability ⟨"u", 1, 2.0, 4.0, some 0, some 1, 0⟩ false 2 false 7 0 rfl

/-- Claim C7: for stability greater than 0 and target retention r in
(0,1), the next-interval function is the exact inverse of the
retrievability function: retrievability at the computed interval equals
r. -/
theorem interval_inversion_round_trip (stability r : ℝ)
    (hs : 0 < stability) (hr0 : 0 < r) (hr1 : r < 1) :
    FSRSMemoryService.calculate_retrievability stability
      (FSRSMemoryService.calculate_next_interval stability r) = r := by
  unfold FSRSMemoryService.calculate_retrievability
    FSRSMemoryService.calculate_next_interval
  have hs' : stability ≠ 0 := ne_of_gt hs
  rw [show -(-stability * Real.log r) / stability = Real.log r by field_simp]
  exact Real.exp_log hr0

/-- Witness for C7: stability 1 and retention one half round-trip. -/
theorem interval_inversion_round_trip_witness :
    (0 : ℝ) < 1 ∧ (0 : ℝ) < 1 / 2 ∧ (1 : ℝ) / 2 < 1 ∧
      FSRSMemoryService.calculate_retrievability 1
        (FSRSMemoryService.calculate_next_interval 1 (1 / 2)) = 1 / 2 :=
  ⟨by norm_num, by norm_num, by norm_num,
    interval_inversion_round_trip 1 (1 / 2) (by norm_num) (by norm_num) (by norm_num)⟩

/-- Lookup in the initial-stability table misses every key for a rating
outside 1..4. -/
theorem initial_stability_eq_none {rating : ℤ} (h1 : rating ≠ 1) (h2 : rating ≠ 2)
    (h3 : rating ≠ 3) (h4 : rating ≠ 4) : initial_stability rating = none := by
  unfold initial_stability
  split_ifs <;> simp_all

/-- Lookup in the stability-multiplier table misses every key for a
rating outside 1..4. -/
theorem stability_multipliers_eq_none {rating : ℤ} (h1 : rating ≠ 1) (h2 : rating ≠ 2)
    (h3 : rating ≠ 3) (h4 : rating ≠ 4) : stability_multipliers rating = none := by
  unfold stability_multipliers
  split_ifs <;> simp_all

/-- Lookup in the difficulty-adjustment table misses every key for a
rating outside 1..4. -/
theorem difficulty_adjustments_eq_none {rating : ℤ} (h1 : rating ≠ 1) (h2 : rating ≠ 2)
    (h3 : rating ≠ 3) (h4 : rating ≠ 4) : difficulty_adjustments rating = none := by
  unfold difficulty_adjustments
  split_ifs <;> simp_all

/-- Whatever the rating, the first-review initial stability (table value
or the 1.0 fallback) is positive. -/
theorem initial_stability_getD_pos (rating : ℤ) :
    0 < (initial_stability rating).getD 1.0 := by
  unfold initial_stability
  split_ifs <;> norm_num

/-- Whatever the rating, the success-branch stability multiplier (table
value or the 1.5 fallback) is positive. -/
theorem stability_multipliers_getD_pos (rating : ℤ) :
    0 < (stability_multipliers rating).getD 1.5 := by
  unfold stability_multipliers
  split_ifs <;> norm_num

/-- Counterexample to claim C1 as stated: at elapsed_days = 0 (a second
review at the exact instant of the previous one), the success branch
multiplies stability by sqrt 0 = 0, so the post-update stability is
exactly 0, not strictly positive. -/
theorem update_memory_zero_stability_at_zero_elapsed :
    (FSRSMemoryService.update_memory ⟨"u", 1, 2.0, 1.0, some 0, none, 0⟩
        3 true 0 false 0).stability = 0 ∧
    ¬ (0 < (FSRSMemoryService.update_memory ⟨"u", 1, 2.0, 1.0, some 0, none, 0⟩
        3 true 0 false 0).stability) := by
  have h : (FSRSMemoryService.update_memory ⟨"u", 1, 2.0, 1.0, some 0, none, 0⟩
      3 true 0 false 0).stability = 0 := by
    unfold FSRSMemoryService.update_memory
    norm_num [stability_multipliers, min_def, max_def]
  exact ⟨h, by rw [h]; norm_num⟩

/-- Claim C1 (amended): the post-update stability is strictly positive
for every rating and every strictly positive elapsed time (last review
strictly before now), from any state with positive stability; at
elapsed time exactly 0 the success branch instead yields exactly 0. The
first-review branch and the lapse branch are positive for every elapsed
time. -/
theorem update_memory_stability_pos (m : FSRSMemory) (rating : ℤ) (solved : Bool)
    (tries_count : ℤ) (hint_used : Bool) (now : ℝ)
    (hstab : 0 < m.stability)
    (helapsed : ∀ t, m.last_review_date = some t → t < now) :
    0 < (FSRSMemoryService.update_memory m rating solved tries_count
        hint_used now).stability := by
  unfold FSRSMemoryService.update_memory
  cases hl : m.last_review_date with
  | none =>
    simp only [hl]
    exact initial_stability_getD_pos rating
  | some t =>
    have ht : t < now := helapsed t hl
    simp only [hl]
    by_cases h1 : rating = 1
    · rw [if_pos h1]
      have : (0 : ℝ) < 0.2 := by norm_num
      exact mul_pos hstab this
    · rw [if_neg h1]
      have hsqrt : 0 < Real.sqrt ((now - t) / max m.stability 0.1) := by
        apply Real.sqrt_pos.mpr
        exact div_pos (by linarith) (lt_max_of_lt_right (by norm_num))
      have hmin : 0 < min 2.0 (Real.sqrt ((now - t) / max m.stability 0.1)) :=
        lt_min (by norm_num) hsqrt
      exact mul_pos hstab (mul_pos (stability_multipliers_getD_pos rating) hmin)

/-- Witness for the amended C1: a concrete reviewed state with stability
1, reviewed with quality 3 one day later, keeps a strictly positive
stability. -/
theorem update_memory_stability_pos_witness :
    0 < (FSRSMemoryService.update_memory ⟨"u", 1, 2.0, 1.0, some 0, none, 0⟩
        3 true 0 false 1).stability :=
  update_memory_stability_pos ⟨"u", 1, 2.0, 1.0, some 0, none, 0⟩ 3 true 0 false 1
    (by norm_num)
    (by intro t ht; simp only [Option.some_inj] at ht; rw [← ht]; norm_num)

/-- Claim C9: the update operation is total over arbitrary integer
ratings; for a rating outside 1..4 it silently falls back to the
dictionary defaults — initial stability 1.0 on a first review,
difficulty delta 0, and multiplier 1.5 on a successful non-first
review — and completes the update normally. -/
theorem update_memory_unknown_rating_defaults (m : FSRSMemory) (rating : ℤ)
    (solved : Bool) (tries_count : ℤ) (hint_used : Bool) (now : ℝ)
    (h1 : rating ≠ 1) (h2 : rating ≠ 2) (h3 : rating ≠ 3) (h4 : rating ≠ 4) :
    (m.last_review_date = none →
      (FSRSMemoryService.update_memory m rating solved tries_count hint_used
        now).stability = 1.0) ∧
    ((FSRSMemoryService.update_memory m rating solved tries_count hint_used
        now).difficulty
      = max 1.0 (min 3.0 (m.difficulty +
          ((if tries_count > 0 then 0.1 * ((min tries_count 3 : ℤ) : ℝ) else 0) +
            (if hint_used then 0.2 else 0))))) ∧
    (∀ t, m.last_review_date = some t →
      (FSRSMemoryService.update_memory m rating solved tries_count hint_used
        now).stability
        = m.stability * (1.5 *
            min 2.0 (Real.sqrt ((now - t) / max m.stability 0.1)))) := by
  refine ⟨?_, ?_, ?_⟩
  · intro hnone
    unfold FSRSMemoryService.update_memory
    simp only [hnone, initial_stability_eq_none h1 h2 h3 h4, Option.getD_none]
  · unfold FSRSMemoryService.update_memory
    rw [difficulty_adjustments_eq_none h1 h2 h3 h4]
    simp only [Option.getD_none]
    congr 1
    congr 1
    split_ifs <;> ring
  · intro t ht
    unfold FSRSMemoryService.update_memory
    simp only [ht, if_neg h1, stability_multipliers_eq_none h1 h2 h3 h4,
      Option.getD_none]

/-- Witness for C9: rating 7 on a reviewed state with stability 1 takes
the fallback multiplier 1.5 times the spacing factor. -/
theorem update_memory_unknown_rating_defaults_witness :
    (FSRSMemoryService.update_memory ⟨"u", 1, 2.0, 1.0, some 0, none, 0⟩
        7 true 0 false 4).stability
      = (1.0 : ℝ) * (1.5 * min 2.0 (Real.sqrt ((4 - 0) / max 1.0 0.1))) :=
  (update_memory_unknown_rating_defaults ⟨"u", 1, 2.0, 1.0, some 0, none, 0⟩ 7
    true 0 false 4 (by norm_num) (by norm_num) (by norm_num) (by norm_num)).2.2 0 rfl

/-- The next_review_date written by the update is always now plus the
next interval computed from the post-update stability at the 0.9
retention target. Holds definitionally. -/
theorem update_memory_next_review_eq (m : FSRSMemory) (rating : ℤ) (solved : Bool)
    (tries_count : ℤ) (hint_used : Bool) (now : ℝ) :
    (FSRSMemoryService.update_memory m rating solved tries_count hint_used
        now).next_review_date
      = some (now + FSRSMemoryService.calculate_next_interval
          (FSRSMemoryService.update_memory m rating solved tries_count hint_used
            now).stability 0.9) := rfl

/-- Counterexample to claim C10 as stated: a successful non-first review
at the exact instant of the previous one drives stability to 0, so the
written next_review_date coincides with last_review_date instead of
being strictly later. -/
theorem update_memory_timestamps_equal_at_zero_elapsed :
    (FSRSMemoryService.update_memory ⟨"u", 2, 2.0, 2.0, some 5, none, 0⟩
        4 true 0 false 5).last_review_date = some 5 ∧
    (FSRSMemoryService.update_memory ⟨"u", 2, 2.0, 2.0, some 5, none, 0⟩
        4 true 0 false 5).next_review_date = some 5 := by
  constructor
  · rfl
  · rw [update_memory_next_review_eq]
    have h : (FSRSMemoryService.update_memory ⟨"u", 2, 2.0, 2.0, some 5, none, 0⟩
        4 true 0 false 5).stability = 0 := by
      unfold FSRSMemoryService.update_memory
      norm_num [stability_multipliers, min_def, max_def]
    rw [h]
    unfold FSRSMemoryService.calculate_next_interval
    norm_num

/-- Claim C10 (amended): after every update, last_review_date is now and
next_review_date is now plus post-update stability times minus log 0.9;
next_review_date is strictly later than last_review_date whenever the
post-update stability is positive, which can fail only for a
zero-elapsed successful non-first review, where the two coincide. -/
theorem update_memory_timestamps_consistent (m : FSRSMemory) (rating : ℤ)
    (solved : Bool) (tries_count : ℤ) (hint_used : Bool) (now : ℝ) :
    (FSRSMemoryService.update_memory m rating solved tries_count hint_used
        now).last_review_date = some now ∧
    (FSRSMemoryService.update_memory m rating solved tries_count hint_used
        now).next_review_date
      = some (now + (FSRSMemoryService.update_memory m rating solved tries_count
          hint_used now).stability * (-Real.log 0.9)) ∧
    (0 < (FSRSMemoryService.update_memory m rating solved tries_count hint_used
        now).stability →
      ∀ tl tn,
        (FSRSMemoryService.update_memory m rating solved tries_count hint_used
          now).last_review_date = some tl →
        (FSRSMemoryService.update_memory m rating solved tries_count hint_used
          now).next_review_date = some tn →
        tl < tn) := by
  have hnext : (FSRSMemoryService.update_memory m rating solved tries_count
      hint_used now).next_review_date
      = some (now + (FSRSMemoryService.update_memory m rating solved tries_count
          hint_used now).stability * (-Real.log 0.9)) := by
    rw [update_memory_next_review_eq]
    unfold FSRSMemoryService.calculate_next_interval
    congr 1
    ring
  refine ⟨rfl, hnext, ?_⟩
  intro hpos tl tn hl hn
  have hlast : (FSRSMemoryService.update_memory m rating solved tries_count
      hint_used now).last_review_date = some now := rfl
  have hl' : tl = now := by
    rw [hlast] at hl
    exact (Option.some_inj.mp hl).symm
  have hn' : tn = now + (FSRSMemoryService.update_memory m rating solved
      tries_count hint_used now).stability * (-Real.log 0.9) := by
    rw [hnext] at hn
    exact (Option.some_inj.mp hn).symm
  rw [hl', hn']
  have hlog : 0 < -Real.log 0.9 :=
    neg_pos.mpr (Real.log_neg (by norm_num) (by norm_num))
  linarith [mul_pos hpos hlog]

/-- Witness for the amended C10: a concrete first review with quality 3
at time 2 sets last_review_date to 2 and a strictly later
next_review_date. -/
theorem update_memory_timestamps_consistent_witness :
    (FSRSMemoryService.update_memory ⟨"u", 3, 2.0, 0.5, none, none, 0⟩
        3 true 0 false 2).last_review_date = some 2 ∧
    (2 : ℝ) < 2 + (FSRSMemoryService.update_memory ⟨"u", 3, 2.0, 0.5, none, none, 0⟩
        3 true 0 false 2).stability * (-Real.log 0.9) := by
  have h := update_memory_timestamps_consistent ⟨"u", 3, 2.0, 0.5, none, none, 0⟩
    3 true 0 false 2
  have hpos : 0 < (FSRSMemoryService.update_memory ⟨"u", 3, 2.0, 0.5, none, none, 0⟩
      3 true 0 false 2).stability := by
    unfold FSRSMemoryService.update_memory
    norm_num [initial_stability]
  exact ⟨h.1, h.2.2 hpos 2 _ h.1 h.2.1⟩

/-- Counterexample to claim C2 as stated: a submission with negative
tries (-1) and an explicit out-of-range quality (7) for an existing
puzzle and player is not rejected: the view returns the 201 created
response, the attempt log grows, and the daily counter is incremented. -/
theorem attempt_post_accepts_invalid_outcome :
    ((fsrsAttemptPost ⟨[], ⟨0, 0⟩, none⟩ (some 1) (some "u") (-1) false true
        (some 7) 0).1.isCreated = true) ∧
    ((fsrsAttemptPost ⟨[], ⟨0, 0⟩, none⟩ (some 1) (some "u") (-1) false true
        (some 7) 0).2.attempts.length = 1) ∧
    ((fsrsAttemptPost ⟨[], ⟨0, 0⟩, none⟩ (some 1) (some "u") (-1) false true
        (some 7) 0).2.progress.total_puzzles_done = 1) := by
  refine ⟨rfl, rfl, ?_⟩
  unfold fsrsAttemptPost UserDailyProgress.total_puzzles_done
  norm_num

/-- Claim C2 (amended): the attempt-submission operation validates only
the presence of puzzle_id and player_username, never the outcome: for
every tries count (negative included) and every explicit rating
(out-of-range included) it returns the created response and mutates the
state — the attempt log grows by one, the daily total advances by one,
and the memory row is written. -/
theorem attempt_post_no_outcome_validation (db : AttemptDB) (pid : Nat)
    (username : String) (tries_count : ℤ) (hint_used solved : Bool)
    (rating0 : Option ℤ) (now : ℝ) :
    ((fsrsAttemptPost db (some pid) (some username) tries_count hint_used solved
        rating0 now).1.isCreated = true) ∧
    ((fsrsAttemptPost db (some pid) (some username) tries_count hint_used solved
        rating0 now).2.attempts.length = db.attempts.length + 1) ∧
    ((fsrsAttemptPost db (some pid) (some username) tries_count hint_used solved
        rating0 now).2.progress.total_puzzles_done
      = db.progress.total_puzzles_done + 1) ∧
    ((fsrsAttemptPost db (some pid) (some username) tries_count hint_used solved
        rating0 now).2.memory.isSome = true) := by
  refine ⟨rfl, ?_, ?_, rfl⟩
  · show (db.attempts ++ [_]).length = db.attempts.length + 1
    simp
  · show (if _ then _ else _ : UserDailyProgress).total_puzzles_done
      = db.progress.total_puzzles_done + 1
    unfold UserDailyProgress.total_puzzles_done
    split_ifs <;> (simp only []; ring)

/-- Claim C8: when the daily quota is exhausted (total done at least the
total limit), the daily-mix endpoint returns an empty puzzle list as a
valid terminal state, regardless of how many items are due and of the
new-item quota. -/
theorem daily_mix_quota_exhausted (username : String) (memories : List FSRSMemory)
    (puzzles : List Puzzle) (attempts : List PuzzleAttempt)
    (progress : UserDailyProgress) (new_limit total_limit per_page : ℤ) (now : ℝ)
    (shuffle : List Puzzle → List Puzzle)
    (h : total_limit ≤ progress.total_puzzles_done) :
    dailyPuzzlesPage username memories puzzles attempts progress new_limit
      total_limit per_page now shuffle = [] := by
  unfold dailyPuzzlesPage dailyPuzzles
  have hle : max 0 (total_limit - progress.total_puzzles_done) ≤ 0 :=
    max_le (le_refl 0) (by omega)
  rw [if_pos hle]
  simp

/-- Witness for C8: a player with 25 new and 25 reviews done against a
total limit of 50 receives an empty list even with a due item present. -/
theorem daily_mix_quota_exhausted_witness :
    dailyPuzzlesPage "u" [⟨"u", 1, 2.0, 1.0, some 0, some 0, 0⟩] [⟨1, "u"⟩] []
      ⟨25, 25⟩ 25 50 10 1 id = [] :=
  daily_mix_quota_exhausted "u" [⟨"u", 1, 2.0, 1.0, some 0, some 0, 0⟩]
    [⟨1, "u"⟩] [] ⟨25, 25⟩ 25 50 10 1 id
    (by norm_num [UserDailyProgress.total_puzzles_done])

/-- Claim C3 (amended): when quota remains, the daily mix fills its
reviews_to_use = min(due_count, total_remaining) leading slots with due
items taken as a prefix of the id-filtered due list in store order (not
ranked by retrievability, which only the separate due-listing endpoint
uses); every item in those slots has a due memory for this learner. -/
theorem daily_mix_review_slots_due (username : String) (memories : List FSRSMemory)
    (puzzles : List Puzzle) (attempts : List PuzzleAttempt)
    (progress : UserDailyProgress) (new_limit total_limit : ℤ) (now : ℝ)
    (shuffle : List Puzzle → List Puzzle)
    (h : 0 < max 0 (total_limit - progress.total_puzzles_done)) :
    (dailyPuzzles username memories puzzles attempts progress new_limit total_limit
        now shuffle).take
        (min ((due_puzzles_of username memories puzzles now).length : ℤ)
          (max 0 (total_limit - progress.total_puzzles_done))).toNat
      = (due_puzzles_of username memories puzzles now).take
          (min ((due_puzzles_of username memories puzzles now).length : ℤ)
            (max 0 (total_limit - progress.total_puzzles_done))).toNat ∧
    (∀ p ∈ (dailyPuzzles username memories puzzles attempts progress new_limit
        total_limit now shuffle).take
        (min ((due_puzzles_of username memories puzzles now).length : ℤ)
          (max 0 (total_limit - progress.total_puzzles_done))).toNat,
      ∃ m ∈ memories, m.player_username = username ∧ m.puzzle_id = p.id ∧
        ∃ t, m.next_review_date = some t ∧ t ≤ now) := by
  have hkey : ∃ rest, dailyPuzzles username memories puzzles attempts progress
      new_limit total_limit now shuffle
      = (due_puzzles_of username memories puzzles now).take
          (min ((due_puzzles_of username memories puzzles now).length : ℤ)
            (max 0 (total_limit - progress.total_puzzles_done))).toNat ++ rest := by
    simp only [dailyPuzzles]
    rw [if_neg (not_le.mpr h)]
    exact ⟨_, rfl⟩
  obtain ⟨rest, hkey⟩ := hkey
  have hlen : (min ((due_puzzles_of username memories puzzles now).length : ℤ)
      (max 0 (total_limit - progress.total_puzzles_done))).toNat
      ≤ (due_puzzles_of username memories puzzles now).length := by
    have h1 : min ((due_puzzles_of username memories puzzles now).length : ℤ)
        (max 0 (total_limit - progress.total_puzzles_done))
        ≤ ((due_puzzles_of username memories puzzles now).length : ℤ) :=
      min_le_left _ _
    have h2 := Int.toNat_le_toNat h1
    simpa using h2
  have htakelen : (min ((due_puzzles_of username memories puzzles now).length : ℤ)
      (max 0 (total_limit - progress.total_puzzles_done))).toNat
      ≤ ((due_puzzles_of username memories puzzles now).take
          (min ((due_puzzles_of username memories puzzles now).length : ℤ)
            (max 0 (total_limit - progress.total_puzzles_done))).toNat).length := by
    rw [List.length_take]
    omega
  have hpre : (dailyPuzzles username memories puzzles attempts progress new_limit
      total_limit now shuffle).take
      (min ((due_puzzles_of username memories puzzles now).length : ℤ)
        (max 0 (total_limit - progress.total_puzzles_done))).toNat
      = (due_puzzles_of username memories puzzles now).take
          (min ((due_puzzles_of username memories puzzles now).length : ℤ)
            (max 0 (total_limit - progress.total_puzzles_done))).toNat := by
    rw [hkey, List.take_append_of_le_length htakelen, List.take_take, min_self]
  refine ⟨hpre, ?_⟩
  intro p hp
  rw [hpre] at hp
  have hpD : p ∈ due_puzzles_of username memories puzzles now :=
    List.take_subset _ _ hp
  unfold due_puzzles_of at hpD
  obtain ⟨hpP, hpdec⟩ := List.mem_filter.mp hpD
  rw [decide_eq_true_eq] at hpdec
  obtain ⟨m, hmF, hmid⟩ := List.mem_map.mp hpdec
  obtain ⟨hmMem, hmDue⟩ := List.mem_filter.mp hmF
  unfold due_memory at hmDue
  rw [Bool.and_eq_true, decide_eq_true_eq] at hmDue
  obtain ⟨hplayer, hnext⟩ := hmDue
  refine ⟨m, hmMem, hplayer, hmid, ?_⟩
  cases hnr : m.next_review_date with
  | none => rw [hnr] at hnext; simp at hnext
  | some t =>
    rw [hnr] at hnext
    rw [decide_eq_true_eq] at hnext
    exact ⟨t, rfl, hnext⟩

/-- Counterexample to claim C3 as stated: with one review slot remaining
and two due items, the daily mix selects puzzle 1 even though puzzle 2
has strictly lower retrievability (is more urgent): the selection is not
ranked by current retrievability. Memory A has stability 10, last review
at day 9, due since day 8; memory B has stability 0.5, last review at
day 9, due since day 9; at day 10 their retrievabilities are exp(-1/10)
and exp(-2). -/
theorem daily_mix_not_ordered_by_retrievability :
    dailyPuzzles "u"
        [⟨"u", 1, 2.0, 10.0, some 9, some 8, 0⟩, ⟨"u", 2, 2.0, 0.5, some 9, some 9, 0⟩]
        [⟨1, "u"⟩, ⟨2, "u"⟩] [] ⟨0, 0⟩ 25 1 10 id = [⟨1, "u"⟩] ∧
    FSRSMemory.calculate_retrievability ⟨"u", 2, 2.0, 0.5, some 9, some 9, 0⟩ 10
      < FSRSMemory.calculate_retrievability ⟨"u", 1, 2.0, 10.0, some 9, some 8, 0⟩ 10 := by
  constructor
  · have hA : due_memory "u" 10 ⟨"u", 1, 2.0, 10.0, some 9, some 8, 0⟩ = true := by
      norm_num [due_memory]
    have hB : due_memory "u" 10 ⟨"u", 2, 2.0, 0.5, some 9, some 9, 0⟩ = true := by
      norm_num [due_memory]
    have hD : due_puzzles_of "u"
        [⟨"u", 1, 2.0, 10.0, some 9, some 8, 0⟩, ⟨"u", 2, 2.0, 0.5, some 9, some 9, 0⟩]
        [⟨1, "u"⟩, ⟨2, "u"⟩] 10 = [⟨1, "u"⟩, ⟨2, "u"⟩] := by
      unfold due_puzzles_of
      rw [List.filter_cons_of_pos hA, List.filter_cons_of_pos hB, List.filter_nil]
      simp
    simp only [dailyPuzzles, UserDailyProgress.total_puzzles_done]
    rw [if_neg (by norm_num)]
    rw [hD]
    norm_num
  · unfold FSRSMemory.calculate_retrievability
    simp only []
    apply Real.exp_lt_exp.mpr
    norm_num

/-- Witness for the amended C3: with one due item and quota remaining,
the item in the leading review slot indeed has a due memory. -/
theorem daily_mix_review_slots_due_witness :
    ∃ m ∈ [(⟨"u", 1, 2.0, 1.0, some 0, some 0, 0⟩ : FSRSMemory)],
      m.player_username = "u" ∧ m.puzzle_id = (⟨1, "u"⟩ : Puzzle).id ∧
        ∃ t, m.next_review_date = some t ∧ t ≤ (1 : ℝ) := by
  have hmem : (⟨1, "u"⟩ : Puzzle) ∈ (dailyPuzzles "u"
      [⟨"u", 1, 2.0, 1.0, some 0, some 0, 0⟩] [⟨1, "u"⟩] [] ⟨0, 0⟩ 25 50 1 id).take
      (min ((due_puzzles_of "u" [⟨"u", 1, 2.0, 1.0, some 0, some 0, 0⟩]
          [⟨1, "u"⟩] 1).length : ℤ)
        (max 0 (50 - (⟨0, 0⟩ : UserDailyProgress).total_puzzles_done))).toNat := by
    have hA : due_memory "u" 1 ⟨"u", 1, 2.0, 1.0, some 0, some 0, 0⟩ = true := by
      norm_num [due_memory]
    have hD : due_puzzles_of "u" [⟨"u", 1, 2.0, 1.0, some 0, some 0, 0⟩]
        [⟨1, "u"⟩] 1 = [⟨1, "u"⟩] := by
      unfold due_puzzles_of
      rw [List.filter_cons_of_pos hA, List.filter_nil]
      simp
    rw [hD]
    simp only [dailyPuzzles, UserDailyProgress.total_puzzles_done]
    rw [if_neg (by norm_num)]
    rw [hD]
    norm_num
  exact (daily_mix_review_slots_due "u" [⟨"u", 1, 2.0, 1.0, some 0, some 0, 0⟩]
    [⟨1, "u"⟩] [] ⟨0, 0⟩ 25 50 1 id
    (by norm_num [UserDailyProgress.total_puzzles_done])).2 ⟨1, "u"⟩ hmem

end ChessClient
